import Mathlib

/-!
Shallow embedding of `main.py` from the `longcon-2025-mcp` repository:
the MCP output-security gate (`validate_mcp_response`), the enforcement
decorator (`secure_mcp_response` / `SecurityError`), and the decorated
Jira tool `get_jira_issue`.

Python values that can flow through the gate are modelled by the inductive
type `Value`; Python exceptions by `PyExc`; fallible Python code returns
`Except PyExc _`.  Python's `str()` / `repr()` are modelled for the ASCII
fragment the repository exercises (escaping of non-printable ASCII is
included; `\u`-escaping of exotic unicode in `repr` is elided, as is full
unicode case mapping in `str.lower`, which is modelled by the per-`Char`
ASCII mapping `Char.toLower`).
-/

/-- Python exceptions, as far as the repository distinguishes them:
`SecurityError` raised by the enforcement decorator, and any other
exception (tracked by its `str()` message). -/
inductive PyExc where
  | securityError (msg : String)
  | exc (msg : String)
deriving Repr

/-- Python values returned by MCP tools/resources: strings, ints, bools,
`None`, lists, string-keyed dicts, and values whose `__str__` raises
(needed to settle the totality claim about stringification). -/
inductive Value where
  | vStr (s : String)
  | vInt (n : Int)
  | vBool (b : Bool)
  | vNone
  | vList (xs : List Value)
  | vDict (xs : List (String × Value))
  | vRaise (msg : String)
deriving Repr

/-- Hex digit character for `repr`'s `\xHH` escapes. -/
def hexDigit (n : Nat) : Char :=
  if n < 10 then Char.ofNat (48 + n) else Char.ofNat (87 + n)

/-- Single quote character. -/
def sglQuote : Char := Char.ofNat 39

/-- Double quote character. -/
def dblQuote : Char := Char.ofNat 34

/-- CPython `repr` escaping of one character of a string, given the chosen
quote character `q`. -/
def reprEscape (q c : Char) : List Char :=
  if c == '\\' then ['\\', '\\']
  else if c == q then ['\\', q]
  else if c == '\n' then ['\\', 'n']
  else if c == '\r' then ['\\', 'r']
  else if c == '\t' then ['\\', 't']
  else if c.toNat < 32 || c.toNat == 127 then
    ['\\', 'x', hexDigit (c.toNat / 16), hexDigit (c.toNat % 16)]
  else [c]

/-- CPython `repr` of a `str`: single-quoted, switching to double quotes
when the string contains a single quote but no double quote. -/
def pyReprStr (s : String) : String :=
  let q : Char := if s.data.contains sglQuote && !(s.data.contains dblQuote) then dblQuote else sglQuote
  String.mk (q :: (s.data.map (reprEscape q)).flatten ++ [q])

mutual

/-- Python `repr()` on the modelled values.  A value whose `__str__`
raises propagates its exception. -/
def pyRepr : Value → Except PyExc String
  | Value.vStr s => Except.ok (pyReprStr s)
  | Value.vInt n => Except.ok (toString n)
  | Value.vBool b => Except.ok (if b then "True" else "False")
  | Value.vNone => Except.ok "None"
  | Value.vList xs =>
    match pyReprList xs with
    | Except.error e => Except.error e
    | Except.ok parts => Except.ok ("[" ++ String.intercalate ", " parts ++ "]")
  | Value.vDict kvs =>
    match pyReprPairs kvs with
    | Except.error e => Except.error e
    | Except.ok parts => Except.ok ("\x7b" ++ String.intercalate ", " parts ++ "\x7d")
  | Value.vRaise msg => Except.error (PyExc.exc msg)

/-- `repr` of each element of a Python list. -/
def pyReprList : List Value → Except PyExc (List String)
  | [] => Except.ok []
  | v :: vs =>
    match pyRepr v with
    | Except.error e => Except.error e
    | Except.ok s =>
      match pyReprList vs with
      | Except.error e => Except.error e
      | Except.ok rest => Except.ok (s :: rest)

/-- `repr`-formatted `key: value` entries of a Python dict. -/
def pyReprPairs : List (String × Value) → Except PyExc (List String)
  | [] => Except.ok []
  | (k, v) :: kvs =>
    match pyRepr v with
    | Except.error e => Except.error e
    | Except.ok s =>
      match pyReprPairs kvs with
      | Except.error e => Except.error e
      | Except.ok rest => Except.ok ((pyReprStr k ++ ": " ++ s) :: rest)

end

/-- Python `str()` on the modelled values: the identity on strings, and
`repr`-based formatting (as CPython does) elsewhere. -/
def pyStr : Value → Except PyExc String
  | Value.vStr s => Except.ok s
  | v => pyRepr v

/-- Python `str.lower()`, modelled character-wise by `Char.toLower`
(the ASCII case mapping). -/
def pyLower (s : String) : String :=
  String.mk (s.data.map Char.toLower)

/-- Python `str()` of an exception (`str(e)`). -/
def pyStrExc : PyExc → String
  | PyExc.securityError m => m
  | PyExc.exc m => m

/-- Python `str()` of a list of strings, as used by the f-string in the
decorator's `SecurityError` message. -/
def strListRepr (xs : List String) : String :=
  "[" ++ String.intercalate ", " (xs.map pyReprStr) ++ "]"

/-!
A small executable matching engine for the fixed regular expressions of
`main.py`.  Every repetition in those patterns ranges over a single
character class, so a pattern compiles to a list of tokens: a mandatory
one-character class, an optional one-character class (`?`), or a
Kleene-starred class (`*`); `X+` is `X` followed by `X*`, `X{20,}` is
twenty copies of `X` followed by `X*`, and top-level alternation
(`(?:a|b)`) is expanded into alternative token lists.  `re.search`
truthiness is existence of a match at some start position, which is what
`matchSeq`/`searchSeq` decide.
-/

/-- One token of a compiled pattern: a mandatory character class, an
optional one (`?`), or a starred one (`*`). -/
inductive Tok where
  | one (p : Char → Bool)
  | opt (p : Char → Bool)
  | star (p : Char → Bool)

/-- Kleene-star consumption: try the continuation `next` after each
prefix of characters satisfying `p`. -/
def starLoop (next : List Char → Bool) (p : Char → Bool) : List Char → Bool
  | [] => next []
  | c :: cs => next (c :: cs) || (p c && starLoop next p cs)

/-- Does the token list match some prefix of `l`?  (Backtracking
existence semantics, which is all `re.search` truthiness needs.) -/
def matchSeq : List Tok → List Char → Bool
  | [], _ => true
  | Tok.one p :: toks, l =>
    match l with
    | [] => false
    | c :: cs => p c && matchSeq toks cs
  | Tok.opt p :: toks, l =>
    match l with
    | [] => matchSeq toks []
    | c :: cs => matchSeq toks (c :: cs) || (p c && matchSeq toks cs)
  | Tok.star p :: toks, l => starLoop (matchSeq toks) p l

/-- Does the token list match starting at some position of `l`
(`re.search` truthiness for one alternative)? -/
def searchSeq (toks : List Tok) : List Char → Bool
  | [] => matchSeq toks []
  | c :: cs => matchSeq toks (c :: cs) || searchSeq toks cs

/-- A compiled rule: the regex source text (as it appears in `main.py`,
used verbatim in the issue message f-strings) together with the
alternative token lists it compiles to. -/
structure RulePat where
  src : String
  alts : List (List Tok)

/-- `re.search(pattern, text)` truthiness. -/
def searchPat (p : RulePat) (l : List Char) : Bool :=
  p.alts.any (fun a => searchSeq a l)

/-- Python `\s` on the ASCII range: space, tab, newline, carriage
return, vertical tab, form feed. -/
def isWS (c : Char) : Bool :=
  c.toNat == 32 || c.toNat == 9 || c.toNat == 10 || c.toNat == 13 || c.toNat == 11 || c.toNat == 12

/-- Python `\S`. -/
def isNonWS (c : Char) : Bool := !isWS c

/-- The character class `[:=]`. -/
def isColonEq (c : Char) : Bool := c.toNat == 58 || c.toNat == 61

/-- The character class `[a-zA-Z0-9_\-]` of the credential patterns. -/
def isWordChar (c : Char) : Bool :=
  (97 ≤ c.toNat && c.toNat ≤ 122) || (65 ≤ c.toNat && c.toNat ≤ 90)
    || (48 ≤ c.toNat && c.toNat ≤ 57) || c.toNat == 95 || c.toNat == 45

/-- The character class `[a-zA-Z0-9+/=]` of the ssh-rsa pattern. -/
def isB64Char (c : Char) : Bool :=
  (97 ≤ c.toNat && c.toNat ≤ 122) || (65 ≤ c.toNat && c.toNat ≤ 90)
    || (48 ≤ c.toNat && c.toNat ≤ 57) || c.toNat == 43 || c.toNat == 47 || c.toNat == 61

/-- The class `[_\-]` in `api[_\-]?key`. -/
def isUndHyp (c : Char) : Bool := c.toNat == 95 || c.toNat == 45

/-- Regex `.` without `re.DOTALL`: any character except newline. -/
def isDotChar (c : Char) : Bool := !(c.toNat == 10)

/-- A case-insensitive literal character token (`re.IGNORECASE`
applied to an ASCII literal). -/
def ciLit (c : Char) : Tok := Tok.one (fun d => d.toLower == c.toLower)

/-- Case-insensitive literal tokens for a literal string. -/
def lits (s : String) : List Tok := s.data.map ciLit

/-- `\s*` -/
def wsStar : Tok := Tok.star isWS

/-- `\s+` -/
def wsPlus : List Tok := [Tok.one isWS, Tok.star isWS]

/-- `[a-zA-Z0-9_\-]{20,}` -/
def word20 : List Tok := List.replicate 20 (Tok.one isWordChar) ++ [Tok.star isWordChar]

/-- Lowercase ASCII letters, the class `[a-z]` of the URL-scheme scan. -/
def isSchemeChar (c : Char) : Bool := 97 ≤ c.toNat && c.toNat ≤ 122

/-- `re.findall(r'([a-z]+)://', text)`: scan left to right, keeping the
current run of `[a-z]` characters (reversed) in `run`; when a `:` ends a
nonempty run and is followed by `//`, the run is a match and scanning
resumes after the consumed `://`; otherwise the run resets and scanning
continues after the current character.  `fuel` is only a structural
termination measure; every call consumes at least one character, so
`fuel = l.length` never runs out. -/
def findSchemesAux : Nat → List Char → List Char → List String
  | _, _, [] => []
  | 0, _, _ => []
  | fuel + 1, run, c :: cs =>
    if isSchemeChar c then findSchemesAux fuel (c :: run) cs
    else if c.toNat == 58 then
      match cs with
      | d :: e :: rest =>
        if !run.isEmpty && d.toNat == 47 && e.toNat == 47 then
          String.mk run.reverse :: findSchemesAux fuel [] rest
        else findSchemesAux fuel [] cs
      | _ => findSchemesAux fuel [] cs
    else findSchemesAux fuel [] cs

/-- The URL-scheme extraction of `main.py` line 117. -/
def findSchemes (l : List Char) : List String := findSchemesAux l.length [] l

/-- The predicate of a case-insensitive literal character. -/
def ciP (c : Char) : Char → Bool := fun d => d.toLower == c.toLower

/-- `(?:X)?` for a literal character `X` under `re.IGNORECASE`. -/
def ciOpt (c : Char) : Tok := Tok.opt (ciP c)

/-- `suspicious_domains` from `main.py`, verbatim. -/
def suspicious_domains : List String :=
  ["bit.ly", "tinyurl.com", "goo.gl", "ow.ly",
   "pastebin.com", "hastebin.com", "dpaste.org",
   "discord.gg", "throwaway", "burner", "gist.githubusercontent.com"]

/-- `injection_patterns` from `main.py`: each regex source string paired
with its compiled token alternatives. -/
def injection_patterns : List RulePat :=
  [ ⟨"ignore\\s+previous\\s+instructions",
     [lits "ignore" ++ wsPlus ++ lits "previous" ++ wsPlus ++ lits "instructions"]⟩,
    ⟨"forget\\s+everything\\s+above",
     [lits "forget" ++ wsPlus ++ lits "everything" ++ wsPlus ++ lits "above"]⟩,
    ⟨"system\\s*:\\s*you\\s+are",
     [lits "system" ++ [wsStar] ++ lits ":" ++ [wsStar] ++ lits "you" ++ wsPlus ++ lits "are"]⟩,
    ⟨"act\\s+as\\s+if\\s+you\\s+are",
     [lits "act" ++ wsPlus ++ lits "as" ++ wsPlus ++ lits "if" ++ wsPlus ++ lits "you" ++ wsPlus ++ lits "are"]⟩,
    ⟨"pretend\\s+to\\s+be",
     [lits "pretend" ++ wsPlus ++ lits "to" ++ wsPlus ++ lits "be"]⟩,
    ⟨"jailbreak", [lits "jailbreak"]⟩,
    ⟨"override\\s+security", [lits "override" ++ wsPlus ++ lits "security"]⟩,
    ⟨"bypass\\s+restrictions", [lits "bypass" ++ wsPlus ++ lits "restrictions"]⟩,
    ⟨"execute\\s+code", [lits "execute" ++ wsPlus ++ lits "code"]⟩,
    ⟨"run\\s+command", [lits "run" ++ wsPlus ++ lits "command"]⟩,
    ⟨"</?\\s*system\\s*>",
     [lits "<" ++ [ciOpt '/', wsStar] ++ lits "system" ++ [wsStar] ++ lits ">"]⟩,
    ⟨"</?\\s*assistant\\s*>",
     [lits "<" ++ [ciOpt '/', wsStar] ++ lits "assistant" ++ [wsStar] ++ lits ">"]⟩,
    ⟨"</?\\s*user\\s*>",
     [lits "<" ++ [ciOpt '/', wsStar] ++ lits "user" ++ [wsStar] ++ lits ">"]⟩,
    ⟨"<\\s*script\\s*>",
     [lits "<" ++ [wsStar] ++ lits "script" ++ [wsStar] ++ lits ">"]⟩,
    ⟨"javascript\\s*:", [lits "javascript" ++ [wsStar] ++ lits ":"]⟩,
    ⟨"data\\s*:\\s*text/html",
     [lits "data" ++ [wsStar] ++ lits ":" ++ [wsStar] ++ lits "text/html"]⟩ ]

/-- `credential_patterns` from `main.py` (the `\x7b`/`\x7d` escapes in the
source strings are literal `{` / `}`). -/
def credential_patterns : List RulePat :=
  [ ⟨"password\\s*[:=]\\s*\\S+",
     [lits "password" ++ [wsStar, Tok.one isColonEq, wsStar, Tok.one isNonWS, Tok.star isNonWS]]⟩,
    ⟨"token\\s*[:=]\\s*[a-zA-Z0-9_\\-]\x7b20,\x7d",
     [lits "token" ++ [wsStar, Tok.one isColonEq, wsStar] ++ word20]⟩,
    ⟨"api[_\\-]?key\\s*[:=]\\s*[a-zA-Z0-9_\\-]\x7b20,\x7d",
     [lits "api" ++ [Tok.opt isUndHyp] ++ lits "key" ++ [wsStar, Tok.one isColonEq, wsStar] ++ word20]⟩,
    ⟨"secret\\s*[:=]\\s*[a-zA-Z0-9_\\-]\x7b20,\x7d",
     [lits "secret" ++ [wsStar, Tok.one isColonEq, wsStar] ++ word20]⟩,
    ⟨"bearer\\s+[a-zA-Z0-9_\\-]\x7b20,\x7d",
     [lits "bearer" ++ wsPlus ++ word20]⟩,
    ⟨"ssh-rsa\\s+[a-zA-Z0-9+/=]+",
     [lits "ssh-rsa" ++ wsPlus ++ [Tok.one isB64Char, Tok.star isB64Char]]⟩,
    ⟨"-----BEGIN\\s+(?:RSA\\s+)?PRIVATE\\s+KEY-----",
     [lits "-----BEGIN" ++ wsPlus ++ lits "RSA" ++ wsPlus ++ lits "PRIVATE" ++ wsPlus ++ lits "KEY-----",
      lits "-----BEGIN" ++ wsPlus ++ lits "PRIVATE" ++ wsPlus ++ lits "KEY-----"]⟩ ]

/-- `filesystem_patterns` from `main.py`. -/
def filesystem_patterns : List RulePat :=
  [ ⟨"\\.\\./+", [lits ".." ++ [Tok.one (ciP '/'), Tok.star (ciP '/')]]⟩,
    ⟨"/etc/passwd", [lits "/etc/passwd"]⟩,
    ⟨"/etc/shadow", [lits "/etc/shadow"]⟩,
    ⟨"%2e%2e%2f", [lits "%2e%2e%2f"]⟩,
    ⟨"file\\s*:\\s*//", [lits "file" ++ [wsStar] ++ lits ":" ++ [wsStar] ++ lits "//"]⟩,
    ⟨"\\\\\\\\.*\\\\\\\\", [lits "\\\\" ++ [Tok.star isDotChar] ++ lits "\\\\"]⟩,
    ⟨"c:\\\\windows\\\\system32", [lits "c:\\windows\\system32"]⟩ ]

/-- `exec_patterns` from `main.py`. -/
def exec_patterns : List RulePat :=
  [ ⟨"eval\\s*\\(", [lits "eval" ++ [wsStar] ++ lits "("]⟩,
    ⟨"exec\\s*\\(", [lits "exec" ++ [wsStar] ++ lits "("]⟩,
    ⟨"__import__\\s*\\(", [lits "__import__" ++ [wsStar] ++ lits "("]⟩,
    ⟨"subprocess\\.", [lits "subprocess."]⟩,
    ⟨"os\\.system\\s*\\(", [lits "os.system" ++ [wsStar] ++ lits "("]⟩,
    ⟨"shell\\s*=\\s*true", [lits "shell" ++ [wsStar] ++ lits "=" ++ [wsStar] ++ lits "true"]⟩,
    ⟨"powershell\\s+-", [lits "powershell" ++ wsPlus ++ lits "-"]⟩,
    ⟨"cmd\\s*/c\\s+", [lits "cmd" ++ [wsStar] ++ lits "/c" ++ wsPlus]⟩,
    ⟨"/bin/(?:sh|bash|zsh)", [lits "/bin/sh", lits "/bin/bash", lits "/bin/zsh"]⟩ ]

/-- `safe_schemes` from `main.py` (a Python set, used only for
membership). -/
def safe_schemes : List String := ["http", "https", "ftp", "ftps", "mailto"]

/-- Substring membership, Python's `sub in s`. -/
def containsSub (sub : List Char) : List Char → Bool
  | [] => sub.isPrefixOf ([] : List Char)
  | c :: cs => sub.isPrefixOf (c :: cs) || containsSub sub cs

/-- The dict returned by `validate_mcp_response`: keys `is_safe`,
`issues`, `response`. -/
structure VerdictDict where
  is_safe : Bool
  issues : List String
  response : Value

/-- The issue list computed by the body of `validate_mcp_response` on the
canonical (stringified, lowercased) text, mirroring the Python statement
sequence: domain loop, injection loop, credential loop, filesystem loop,
code-execution loop, length check, URL-scheme loop. -/
def issuesFor (response_str : String) : List String :=
  let issues : List String := []
  let issues := suspicious_domains.foldl
    (fun acc domain => if containsSub domain.data response_str.data then
      acc ++ ["Suspicious domain detected: " ++ domain] else acc) issues
  let issues := injection_patterns.foldl
    (fun acc pat => if searchPat pat response_str.data then
      acc ++ ["Potential prompt injection pattern: " ++ pat.src] else acc) issues
  let issues := credential_patterns.foldl
    (fun acc pat => if searchPat pat response_str.data then
      acc ++ ["Potential credential exposure: " ++ pat.src] else acc) issues
  let issues := filesystem_patterns.foldl
    (fun acc pat => if searchPat pat response_str.data then
      acc ++ ["Potential filesystem manipulation: " ++ pat.src] else acc) issues
  let issues := exec_patterns.foldl
    (fun acc pat => if searchPat pat response_str.data then
      acc ++ ["Potential code execution attempt: " ++ pat.src] else acc) issues
  let issues := if response_str.length > 100000 then
    issues ++ ["Response exceeds safe length limit"] else issues
  let url_schemes := findSchemes response_str.data
  let issues := url_schemes.foldl
    (fun acc scheme => if !(safe_schemes.contains scheme) then
      acc ++ ["Suspicious URL scheme: " ++ scheme ++ "://"] else acc) issues
  issues

/-- `validate_mcp_response` from `main.py`: stringify (`str(response)`,
propagating a `__str__` exception), lowercase, run all checks, and return
the dict `\x7b'is_safe': len(issues) == 0, 'issues': issues,
'response': response\x7d`. -/
def validate_mcp_response (response : Value) : Except PyExc VerdictDict :=
  match pyStr response with
  | Except.error e => Except.error e
  | Except.ok s =>
    let response_str := pyLower s
    let issues := issuesFor response_str
    Except.ok { is_safe := issues.length == 0, issues := issues, response := response }

/-- What a call through the decorator can return: the wrapped function's
own result, or (when `raise_on_unsafe=False` and the result is unsafe)
the validation dict. -/
inductive WrapResult where
  | result (v : Value)
  | verdict (d : VerdictDict)

/-- The decorator `secure_mcp_response` from `main.py`, applied to a
zero-argument operation: run the operation (propagating its exception),
validate the result, and on an unsafe verdict either raise
`SecurityError(f"Unsafe MCP response detected: \x7bvalidation['issues']\x7d")`
or return the validation dict; on a safe verdict return the result. -/
def secure_mcp_response ( raise_on_unsafe : Bool) (func : Unit → Except PyExc Value) :
    Unit → Except PyExc WrapResult :=
  fun u =>
    match func u with
    | Except.error e => Except.error e
    | Except.ok result =>
      match validate_mcp_response result with
      | Except.error e => Except.error e
      | Except.ok validation =>
        if !validation.is_safe then
          if raise_on_unsafe then
            Except.error (PyExc.securityError
              ("Unsafe MCP response detected: " ++ strListRepr validation.issues))
          else
            Except.ok (WrapResult.verdict validation)
        else
          Except.ok (WrapResult.result result)

/-- The issue fields of a Jira issue that `get_jira_issue` reads
(`priority` and `assignee` may be absent, Python `None`). -/
structure IssueFields where
  key : String
  summary : String
  description : String
  status : String
  priority : Option String
  assignee : Option String

/-- The `try`/`except` body of `get_jira_issue`: call the tracker
(`jira.issue`, modelled as an oracle that may raise); on success build the
content dict, on any exception return `\x7b"error": str(e)\x7d`. -/
def get_jira_issue_inner (jira_issue : String → Except PyExc IssueFields)
    (issue_key : String) : Value :=
  match jira_issue issue_key with
  | Except.ok issue =>
    Value.vDict
      [ ("key", Value.vStr issue.key),
        ("summary", Value.vStr issue.summary),
        ("description", Value.vStr issue.description),
        ("status", Value.vStr issue.status),
        ("priority", Value.vStr (match issue.priority with
          | some p => p
          | none => "None")),
        ("assignee", Value.vStr (match issue.assignee with
          | some a => a
          | none => "Unassigned")) ]
  | Except.error e => Value.vDict [("error", Value.vStr (pyStrExc e))]

/-- `get_jira_issue` as exposed by the server: the inner body wrapped by
`@secure_mcp_response()` (strict policy, `raise_on_unsafe=True`). -/
def get_jira_issue (jira_issue : String → Except PyExc IssueFields)
    (issue_key : String) : Except PyExc WrapResult :=
  secure_mcp_response true (fun _ => Except.ok (get_jira_issue_inner jira_issue issue_key)) ()

/-!  Per-category finding lists, defined independently of the fold
pipeline in `issuesFor`; the decomposition lemma below proves `issuesFor`
equals their concatenation in evaluation order. -/

/-- Findings of the suspicious-domain check. -/
def domainFindings (response_str : String) : List String :=
  (suspicious_domains.filter (fun domain => containsSub domain.data response_str.data)).map
    (fun domain => "Suspicious domain detected: " ++ domain)

/-- Findings of the prompt-injection check. -/
def injectionFindings (response_str : String) : List String :=
  (injection_patterns.filter (fun pat => searchPat pat response_str.data)).map
    (fun pat => "Potential prompt injection pattern: " ++ pat.src)

/-- Findings of the credential-exposure check. -/
def credentialFindings (response_str : String) : List String :=
  (credential_patterns.filter (fun pat => searchPat pat response_str.data)).map
    (fun pat => "Potential credential exposure: " ++ pat.src)

/-- Findings of the filesystem-manipulation check. -/
def filesystemFindings (response_str : String) : List String :=
  (filesystem_patterns.filter (fun pat => searchPat pat response_str.data)).map
    (fun pat => "Potential filesystem manipulation: " ++ pat.src)

/-- Findings of the code-execution check. -/
def execFindings (response_str : String) : List String :=
  (exec_patterns.filter (fun pat => searchPat pat response_str.data)).map
    (fun pat => "Potential code execution attempt: " ++ pat.src)

/-- Finding of the length check. -/
def lengthFindings (response_str : String) : List String :=
  if response_str.length > 100000 then ["Response exceeds safe length limit"] else []

/-- Findings of the URL-scheme check. -/
def schemeFindings (response_str : String) : List String :=
  ((findSchemes response_str.data).filter (fun scheme => !(safe_schemes.contains scheme))).map
    (fun scheme => "Suspicious URL scheme: " ++ scheme ++ "://")

/-- The issues list of a classification result (empty on an exception). -/
def issuesOfR : Except PyExc VerdictDict → List String
  | Except.ok vd => vd.issues
  | Except.error _ => []

/-- The `is_safe` flag of a classification result (`false` on an
exception). -/
def safeOfR : Except PyExc VerdictDict → Bool
  | Except.ok vd => vd.is_safe
  | Except.error _ => false

/-- Did classification return a verdict at all? -/
def okOfR : Except PyExc VerdictDict → Bool
  | Except.ok _ => true
  | Except.error _ => false

/-- Did classification return a verdict with `is_safe == False`? -/
def isUnsafeR : Except PyExc VerdictDict → Bool
  | Except.ok vd => !vd.is_safe
  | Except.error _ => false

/-- The verdict of a classification result, defaulting on an
exception; used to name concrete verdicts in witnesses. -/
def vdOf (v : Value) : VerdictDict :=
  match validate_mcp_response v with
  | Except.ok vd => vd
  | Except.error _ => { is_safe := true, issues := [], response := Value.vNone }

/-- Number of credential-exposure findings in a classification result,
recognised by the message template of the credential loop. -/
def credCountR (r : Except PyExc VerdictDict) : Nat :=
  (issuesOfR r).countP (fun m => "Potential credential exposure: ".data.isPrefixOf m.data)

/-!  Generic lemmas: fold decomposition, character facts, and the match
semantics of the token engine. -/

theorem foldl_if_append {α : Type} (q : α → Bool) (f : α → String) :
    ∀ (xs : List α) (init : List String),
      xs.foldl (fun acc a => if q a then acc ++ [f a] else acc) init
        = init ++ (xs.filter q).map f := by
  intro xs
  induction xs with
  | nil => intro init; simp
  | cons a as ih =>
    intro init
    by_cases h : q a = true
    · simp [List.foldl_cons, h, List.filter_cons, ih, List.append_assoc]
    · simp [List.foldl_cons, h, List.filter_cons, ih]

theorem issuesFor_eq (c : String) :
    issuesFor c = domainFindings c ++ injectionFindings c ++ credentialFindings c
      ++ filesystemFindings c ++ execFindings c ++ lengthFindings c ++ schemeFindings c := by
  unfold issuesFor domainFindings injectionFindings credentialFindings filesystemFindings
    execFindings lengthFindings schemeFindings
  simp only [foldl_if_append]
  by_cases h : c.length > 100000 <;> simp [h, List.append_assoc]

theorem validate_eq_ok (v : Value) (s : String) (h : pyStr v = Except.ok s) :
    validate_mcp_response v = Except.ok
      { is_safe := (issuesFor (pyLower s)).length == 0,
        issues := issuesFor (pyLower s), response := v } := by
  unfold validate_mcp_response
  rw [h]

theorem char_toNat_ofNat (m : Nat) (h : m < 55296) : (Char.ofNat m).toNat = m := by
  unfold Char.ofNat
  rw [dif_pos (Or.inl h)]
  rfl

theorem toLower_eq (c : Char) :
    Char.toLower c = if c.toNat ≥ 65 ∧ c.toNat ≤ 90 then Char.ofNat (c.toNat + 32) else c := rfl

theorem toLower_toLower (c : Char) : (Char.toLower c).toLower = Char.toLower c := by
  rw [toLower_eq c]
  by_cases h : c.toNat ≥ 65 ∧ c.toNat ≤ 90
  · rw [if_pos h, toLower_eq]
    have hv : (Char.ofNat (c.toNat + 32)).toNat = c.toNat + 32 := char_toNat_ofNat _ (by omega)
    rw [hv, if_neg (by omega)]
  · rw [if_neg h, toLower_eq, if_neg h]

theorem pyLower_pyLower (s : String) : pyLower (pyLower s) = pyLower s := by
  unfold pyLower
  congr 1
  rw [List.map_map]
  exact List.map_congr_left (fun a _ => toLower_toLower a)

theorem wordChar_toLower (c : Char) (h : isWordChar c = true) :
    isWordChar (Char.toLower c) = true := by
  rw [toLower_eq c]
  by_cases hr : c.toNat ≥ 65 ∧ c.toNat ≤ 90
  · rw [if_pos hr]
    have hv : (Char.ofNat (c.toNat + 32)).toNat = c.toNat + 32 := char_toNat_ofNat _ (by omega)
    simp only [isWordChar, hv, Bool.or_eq_true, Bool.and_eq_true, decide_eq_true_eq,
      Nat.beq_eq_true_eq]
    omega
  · rw [if_neg hr]
    exact h

theorem wordChar_not_colonEq (c : Char) (h : isWordChar c = true) : isColonEq c = false := by
  simp only [isWordChar, Bool.or_eq_true, Bool.and_eq_true, decide_eq_true_eq, beq_iff_eq] at h
  by_contra hb
  rw [Bool.not_eq_false] at hb
  simp only [isColonEq, Bool.or_eq_true, beq_iff_eq] at hb
  omega

theorem wordChar_not_ws (c : Char) (h : isWordChar c = true) : isWS c = false := by
  simp only [isWordChar, Bool.or_eq_true, Bool.and_eq_true, decide_eq_true_eq, beq_iff_eq] at h
  by_contra hb
  rw [Bool.not_eq_false] at hb
  simp only [isWS, Bool.or_eq_true, beq_iff_eq] at hb
  omega

/-- Declarative exact-match semantics: the token list consumes precisely
the character list `u`. -/
inductive MSeq : List Tok → List Char → Prop where
  | nil : MSeq [] []
  | one {p : Char → Bool} {toks : List Tok} {c : Char} {u : List Char} :
      p c = true → MSeq toks u → MSeq (Tok.one p :: toks) (c :: u)
  | optSkip {p : Char → Bool} {toks : List Tok} {u : List Char} :
      MSeq toks u → MSeq (Tok.opt p :: toks) u
  | optTake {p : Char → Bool} {toks : List Tok} {c : Char} {u : List Char} :
      p c = true → MSeq toks u → MSeq (Tok.opt p :: toks) (c :: u)
  | starSkip {p : Char → Bool} {toks : List Tok} {u : List Char} :
      MSeq toks u → MSeq (Tok.star p :: toks) u
  | starTake {p : Char → Bool} {toks : List Tok} {c : Char} {u : List Char} :
      p c = true → MSeq (Tok.star p :: toks) u → MSeq (Tok.star p :: toks) (c :: u)

theorem starLoop_of_next (next : List Char → Bool) (p : Char → Bool) (l : List Char)
    (h : next l = true) : starLoop next p l = true := by
  cases l with
  | nil => exact h
  | cons c cs => simp [starLoop, h]

theorem starLoop_iff (next : List Char → Bool) (p : Char → Bool) : ∀ l : List Char,
    (starLoop next p l = true ↔
      ∃ w r, l = w ++ r ∧ (∀ c ∈ w, p c = true) ∧ next r = true) := by
  intro l
  induction l with
  | nil =>
    constructor
    · intro h
      exact ⟨[], [], rfl, by simp, h⟩
    · intro ⟨w, r, heq, _, hnext⟩
      obtain ⟨hw, hr⟩ := List.append_eq_nil.mp heq.symm
      subst hw
      subst hr
      exact hnext
  | cons c cs ih =>
    constructor
    · intro h
      rw [starLoop, Bool.or_eq_true] at h
      cases h with
      | inl h1 => exact ⟨[], c :: cs, rfl, by simp, h1⟩
      | inr h2 =>
        rw [Bool.and_eq_true] at h2
        obtain ⟨w, r, heq, hall, hnext⟩ := ih.mp h2.2
        refine ⟨c :: w, r, by rw [heq, List.cons_append], ?_, hnext⟩
        intro d hd
        rcases List.mem_cons.mp hd with rfl | hd2
        · exact h2.1
        · exact hall d hd2
    · intro ⟨w, r, heq, hall, hnext⟩
      cases w with
      | nil =>
        rw [List.nil_append] at heq
        rw [starLoop, Bool.or_eq_true]
        exact Or.inl (heq ▸ hnext)
      | cons d w2 =>
        rw [List.cons_append] at heq
        injection heq with h1 h2
        subst h1
        rw [starLoop, Bool.or_eq_true]
        refine Or.inr ?_
        rw [Bool.and_eq_true]
        refine ⟨hall c (by simp), ?_⟩
        exact ih.mpr ⟨w2, r, h2, fun e he => hall e (List.mem_cons_of_mem c he), hnext⟩

theorem mseq_star_prepend (p : Char → Bool) {toks : List Tok} {u : List Char} :
    ∀ w : List Char, (∀ c ∈ w, p c = true) →
      MSeq (Tok.star p :: toks) u → MSeq (Tok.star p :: toks) (w ++ u) := by
  intro w
  induction w with
  | nil => intro _ h; exact h
  | cons c cw ih =>
    intro hall h
    exact MSeq.starTake (hall c (by simp))
      (ih (fun d hd => hall d (List.mem_cons_of_mem c hd)) h)

theorem matchSeq_of_mseq {toks : List Tok} {u : List Char} (h : MSeq toks u) :
    ∀ v : List Char, matchSeq toks (u ++ v) = true := by
  induction h with
  | nil => intro v; rfl
  | one hp _ ih =>
    intro v
    simp only [List.cons_append, matchSeq, hp, ih v, Bool.and_self]
  | optSkip _ ih =>
    intro v
    rename_i p toks2 u2 _
    show matchSeq (Tok.opt p :: toks2) (u2 ++ v) = true
    cases hl : (u2 ++ v : List Char) with
    | nil => rw [matchSeq, ← hl]; exact ih v
    | cons c cs => rw [matchSeq, ← hl, ih v]; simp
  | optTake hp _ ih =>
    intro v
    simp only [List.cons_append, matchSeq, hp, ih v, Bool.and_self, Bool.or_true]
  | starSkip _ ih =>
    intro v
    rename_i p toks2 u2 _
    show starLoop (matchSeq toks2) p (u2 ++ v) = true
    exact starLoop_of_next (matchSeq toks2) p (u2 ++ v) (ih v)
  | starTake hp _ ih =>
    intro v
    rename_i p toks2 c u2 _
    have ih2 : starLoop (matchSeq toks2) p (u2 ++ v) = true := ih v
    show starLoop (matchSeq toks2) p ((c :: u2) ++ v) = true
    rw [List.cons_append]
    simp [starLoop, hp, ih2]

theorem mseq_of_matchSeq : ∀ (toks : List Tok) (l : List Char), matchSeq toks l = true →
    ∃ u v, l = u ++ v ∧ MSeq toks u := by
  intro toks
  induction toks with
  | nil =>
    intro l _
    exact ⟨[], l, rfl, MSeq.nil⟩
  | cons t toks ih =>
    intro l h
    cases t with
    | one p =>
      cases l with
      | nil =>
        rw [matchSeq] at h
        exact Bool.noConfusion h
      | cons c cs =>
        rw [matchSeq, Bool.and_eq_true] at h
        obtain ⟨u, v, heq, hms⟩ := ih cs h.2
        exact ⟨c :: u, v, by rw [heq, List.cons_append], MSeq.one h.1 hms⟩
    | opt p =>
      cases l with
      | nil =>
        rw [matchSeq] at h
        obtain ⟨u, v, heq, hms⟩ := ih [] h
        obtain ⟨hu, hv⟩ := List.append_eq_nil.mp heq.symm
        exact ⟨[], [], rfl, MSeq.optSkip (hu ▸ hms)⟩
      | cons c cs =>
        rw [matchSeq, Bool.or_eq_true] at h
        cases h with
        | inl h1 =>
          obtain ⟨u, v, heq, hms⟩ := ih (c :: cs) h1
          exact ⟨u, v, heq, MSeq.optSkip hms⟩
        | inr h2 =>
          rw [Bool.and_eq_true] at h2
          obtain ⟨u, v, heq, hms⟩ := ih cs h2.2
          exact ⟨c :: u, v, by rw [heq, List.cons_append], MSeq.optTake h2.1 hms⟩
    | star p =>
      rw [matchSeq] at h
      obtain ⟨w, r, heq, hall, hnext⟩ := (starLoop_iff (matchSeq toks) p l).mp h
      obtain ⟨u, v, heq2, hms⟩ := ih r hnext
      refine ⟨w ++ u, v, ?_, mseq_star_prepend p w hall (MSeq.starSkip hms)⟩
      rw [heq, heq2, List.append_assoc]

theorem searchSeq_iff (toks : List Tok) : ∀ l : List Char,
    (searchSeq toks l = true ↔ ∃ i, matchSeq toks (l.drop i) = true) := by
  intro l
  induction l with
  | nil =>
    constructor
    · intro h; exact ⟨0, h⟩
    · intro ⟨i, h⟩; simpa [searchSeq, List.drop_nil] using h
  | cons c cs ih =>
    constructor
    · intro h
      rw [searchSeq, Bool.or_eq_true] at h
      cases h with
      | inl h1 => exact ⟨0, h1⟩
      | inr h2 =>
        obtain ⟨i, hi⟩ := ih.mp h2
        exact ⟨i + 1, by simpa using hi⟩
    · intro ⟨i, hi⟩
      rw [searchSeq, Bool.or_eq_true]
      match i with
      | 0 => exact Or.inl hi
      | j + 1 => exact Or.inr (ih.mpr ⟨j, by simpa using hi⟩)

/-- Minimal number of characters a token list must consume (its count of
mandatory tokens). -/
def minLen : List Tok → Nat
  | [] => 0
  | Tok.one _ :: toks => minLen toks + 1
  | Tok.opt _ :: toks => minLen toks
  | Tok.star _ :: toks => minLen toks

theorem mseq_minLen {toks : List Tok} {u : List Char} (h : MSeq toks u) :
    minLen toks ≤ u.length := by
  induction h with
  | nil => simp [minLen]
  | one _ _ ih => simpa [minLen] using ih
  | optSkip _ ih => simpa [minLen] using ih
  | optTake _ _ ih => simp only [minLen, List.length_cons]; omega
  | starSkip _ ih => simpa [minLen] using ih
  | starTake _ _ ih => simp only [minLen, List.length_cons] at *; omega

theorem mseq_append {t1 t2 : List Tok} {u1 u2 : List Char}
    (h1 : MSeq t1 u1) (h2 : MSeq t2 u2) : MSeq (t1 ++ t2) (u1 ++ u2) := by
  induction h1 with
  | nil => simpa using h2
  | one hp _ ih => exact MSeq.one hp ih
  | optSkip _ ih => exact MSeq.optSkip ih
  | optTake hp _ ih => exact MSeq.optTake hp ih
  | starSkip _ ih => exact MSeq.starSkip ih
  | starTake hp _ ih => exact MSeq.starTake hp ih

theorem mseq_replicate_one (p : Char → Bool) :
    ∀ u : List Char, (∀ c ∈ u, p c = true) → MSeq (List.replicate u.length (Tok.one p)) u := by
  intro u
  induction u with
  | nil => intro _; exact MSeq.nil
  | cons c cs ih =>
    intro h
    rw [List.length_cons, List.replicate_succ]
    exact MSeq.one (h c (List.mem_cons_self c cs)) (ih (fun d hd => h d (List.mem_cons_of_mem c hd)))

/-- Any mandatory token somewhere in a matched token list consumed a
character at a position no earlier than the count of mandatory tokens
preceding it. -/
theorem mseq_one_pos (p : Char → Bool) {toks : List Tok} {u : List Char} (h : MSeq toks u) :
    ∀ pre post : List Tok, toks = pre ++ Tok.one p :: post →
      ∃ j, ∃ hj : j < u.length, p (u.get ⟨j, hj⟩) = true ∧ minLen pre ≤ j := by
  induction h with
  | nil =>
    intro pre post heq
    exact absurd heq.symm (by simp)
  | one hp _ ih =>
    intro pre post heq
    cases pre with
    | nil =>
      simp only [List.nil_append, List.cons.injEq] at heq
      obtain ⟨h1, _⟩ := heq
      injection h1 with hpq
      refine ⟨0, by simp, ?_, by simp [minLen]⟩
      simpa [List.get, hpq] using hp
    | cons t pre2 =>
      simp only [List.cons_append, List.cons.injEq] at heq
      obtain ⟨h1, h2⟩ := heq
      obtain ⟨j, hj, hpj, hmin⟩ := ih pre2 post h2
      refine ⟨j + 1, by simpa using Nat.succ_lt_succ hj, ?_, ?_⟩
      · simpa [List.get] using hpj
      · rw [← h1]
        simp only [minLen]
        omega
  | optSkip _ ih =>
    intro pre post heq
    cases pre with
    | nil => simp only [List.nil_append, List.cons.injEq] at heq; exact absurd heq.1 (by simp)
    | cons t pre2 =>
      simp only [List.cons_append, List.cons.injEq] at heq
      obtain ⟨h1, h2⟩ := heq
      obtain ⟨j, hj, hpj, hmin⟩ := ih pre2 post h2
      refine ⟨j, hj, hpj, ?_⟩
      rw [← h1]
      simpa [minLen] using hmin
  | optTake _ _ ih =>
    intro pre post heq
    cases pre with
    | nil => simp only [List.nil_append, List.cons.injEq] at heq; exact absurd heq.1 (by simp)
    | cons t pre2 =>
      simp only [List.cons_append, List.cons.injEq] at heq
      obtain ⟨h1, h2⟩ := heq
      obtain ⟨j, hj, hpj, hmin⟩ := ih pre2 post h2
      refine ⟨j + 1, by simpa using Nat.succ_lt_succ hj, ?_, ?_⟩
      · simpa [List.get] using hpj
      · rw [← h1]
        simp only [minLen]
        omega
  | starSkip _ ih =>
    intro pre post heq
    cases pre with
    | nil => simp only [List.nil_append, List.cons.injEq] at heq; exact absurd heq.1 (by simp)
    | cons t pre2 =>
      simp only [List.cons_append, List.cons.injEq] at heq
      obtain ⟨h1, h2⟩ := heq
      obtain ⟨j, hj, hpj, hmin⟩ := ih pre2 post h2
      refine ⟨j, hj, hpj, ?_⟩
      rw [← h1]
      simpa [minLen] using hmin
  | starTake _ _ ih =>
    intro pre post heq
    obtain ⟨j, hj, hpj, hmin⟩ := ih pre post heq
    refine ⟨j + 1, by simpa using Nat.succ_lt_succ hj, ?_, hmin.trans (Nat.le_succ j)⟩
    simpa [List.get] using hpj

/-- Any mandatory token in a matched token list consumed some character
of the matched text. -/
theorem mseq_one_mem (p : Char → Bool) {toks : List Tok} {u : List Char} (h : MSeq toks u)
    (hmem : Tok.one p ∈ toks) : ∃ c ∈ u, p c = true := by
  obtain ⟨pre, post, heq⟩ := List.append_of_mem hmem
  obtain ⟨j, hj, hpj, _⟩ := mseq_one_pos p h pre post heq
  exact ⟨u.get ⟨j, hj⟩, u.get_mem _ _, hpj⟩


theorem get_drop_add {α : Type} (l : List α) : ∀ (i j : Nat) (h2 : j < (l.drop i).length),
    ∃ h : i + j < l.length, (l.drop i).get ⟨j, h2⟩ = l.get ⟨i + j, h⟩ := by
  induction l with
  | nil => intro i j h2; rw [List.drop_nil] at h2; exact absurd h2 (by simp)
  | cons c cs ih =>
    intro i j h2
    match i with
    | 0 =>
      refine ⟨by simp only [List.drop_zero] at h2; omega, ?_⟩
      simp [Nat.zero_add]
    | k + 1 =>
      obtain ⟨h, he⟩ := ih k j (by simpa using h2)
      have pf : k + 1 + j < (c :: cs).length := by
        simp only [List.length_cons]
        omega
      have pf2 : (k + j) + 1 < (c :: cs).length := by
        simp only [List.length_cons]
        omega
      refine ⟨pf, ?_⟩
      have hfin : (⟨k + 1 + j, pf⟩ : Fin (c :: cs).length) = ⟨(k + j) + 1, pf2⟩ :=
        Fin.ext (show k + 1 + j = (k + j) + 1 by omega)
      rw [hfin]
      exact he

/-!  Analysis of the credential category on inputs of the exact shape
`token=` followed by word characters (the class `[a-zA-Z0-9_\-]`), used
to settle the 20-character boundary claim. -/

/-- The character list `token=` followed by a word-character tail. -/
def tokText (wl : List Char) : List Char := "token=".data ++ wl

theorem tokText_length (wl : List Char) : (tokText wl).length = 6 + wl.length := by
  simp only [tokText, List.length_append]
  norm_num

theorem tokText_no_ws (wl : List Char) (hwl : ∀ c ∈ wl, isWordChar c = true) :
    ∀ c ∈ tokText wl, isWS c = false := by
  intro c hc
  rcases List.mem_append.mp hc with h | h
  · fin_cases h <;> decide
  · exact wordChar_not_ws c (hwl c h)

theorem pre6_colonEq : ∀ i : Fin 6,
    isColonEq ("token=".data.get ⟨i.1, i.2⟩) = true → i.1 = 5 := by decide

theorem tokText_colonEq (wl : List Char) (hwl : ∀ c ∈ wl, isWordChar c = true) :
    ∀ (j : Nat) (hj : j < (tokText wl).length),
      isColonEq ((tokText wl).get ⟨j, hj⟩) = true → j = 5 := by
  intro j hj hc
  by_cases h6 : j < 6
  · have hdata : (tokText wl).get ⟨j, hj⟩ = "token=".data.get ⟨j, h6⟩ := by
      rw [List.get_eq_getElem, List.get_eq_getElem]
      exact List.getElem_append_left (show j < "token=".data.length from h6)
    rw [hdata] at hc
    exact pre6_colonEq ⟨j, h6⟩ hc
  · exfalso
    have h6' : ("token=".data).length ≤ j := Nat.le_of_not_lt h6
    have hbw : j - 6 < wl.length := by
      have := tokText_length wl
      omega
    have hdata : (tokText wl).get ⟨j, hj⟩ = wl.get ⟨j - 6, hbw⟩ := by
      rw [List.get_eq_getElem, List.get_eq_getElem]
      exact List.getElem_append_right h6'
    rw [hdata] at hc
    have hw := hwl (wl.get ⟨j - 6, hbw⟩) (wl.get_mem (j - 6) hbw)
    rw [wordChar_not_colonEq _ hw] at hc
    exact Bool.false_ne_true hc

/-- A pattern alternative containing a mandatory `[:=]` token preceded by
at least six mandatory tokens cannot match anywhere in `token=`-plus-word
text (the only `[:=]` character sits at index 5). -/
theorem colon_kill (wl : List Char) (hwl : ∀ c ∈ wl, isWordChar c = true)
    (alt pre post : List Tok) (halt : alt = pre ++ Tok.one isColonEq :: post)
    (hmin : 6 ≤ minLen pre) (hs : searchSeq alt (tokText wl) = true) : False := by
  obtain ⟨i, hm⟩ := (searchSeq_iff alt _).mp hs
  obtain ⟨u, v, heq, hms⟩ := mseq_of_matchSeq _ _ hm
  obtain ⟨j, hj, hpj, hminj⟩ := mseq_one_pos isColonEq hms pre post halt
  have hju : j < ((tokText wl).drop i).length := by
    rw [heq, List.length_append]
    omega
  obtain ⟨hb, he⟩ := get_drop_add (tokText wl) i j hju
  have hgu : ((tokText wl).drop i).get ⟨j, hju⟩ = u.get ⟨j, hj⟩ := by
    rw [List.get_of_eq heq ⟨j, hju⟩, List.get_eq_getElem, List.get_eq_getElem]
    exact List.getElem_append_left hj
  have hc5 := tokText_colonEq wl hwl (i + j) hb (by rw [← he, hgu]; exact hpj)
  omega

/-- A pattern alternative containing a mandatory whitespace token cannot
match anywhere in `token=`-plus-word text (which contains no whitespace
at all). -/
theorem ws_kill (wl : List Char) (hwl : ∀ c ∈ wl, isWordChar c = true)
    (alt : List Tok) (hmem : Tok.one isWS ∈ alt)
    (hs : searchSeq alt (tokText wl) = true) : False := by
  obtain ⟨i, hm⟩ := (searchSeq_iff alt _).mp hs
  obtain ⟨u, v, heq, hms⟩ := mseq_of_matchSeq _ _ hm
  obtain ⟨c, hcu, hc⟩ := mseq_one_mem isWS hms hmem
  have hmem2 : c ∈ tokText wl := by
    have h1 : c ∈ (tokText wl).drop i := by
      rw [heq]
      exact List.mem_append_left v hcu
    exact List.mem_of_mem_drop h1
  rw [tokText_no_ws wl hwl c hmem2] at hc
  exact Bool.false_ne_true hc

/-- The token alternative compiled from `token\s*[:=]\s*[a-zA-Z0-9_\-]{20,}`. -/
def tokenAlt : List Tok := lits "token" ++ [wsStar, Tok.one isColonEq, wsStar] ++ word20

theorem token_fwd (wl : List Char) (hs : searchSeq tokenAlt (tokText wl) = true) :
    20 ≤ wl.length := by
  obtain ⟨i, hm⟩ := (searchSeq_iff tokenAlt _).mp hs
  obtain ⟨u, v, heq, hms⟩ := mseq_of_matchSeq _ _ hm
  have h26 : (26 : Nat) ≤ u.length := by
    have := mseq_minLen hms
    have hmin : minLen tokenAlt = 26 := by rfl
    omega
  have hlen : u.length + v.length = ((tokText wl).drop i).length := by
    rw [heq, List.length_append]
  have hdl := List.length_drop i (tokText wl)
  have htl := tokText_length wl
  omega

theorem token_bwd (wl : List Char) (hwl : ∀ c ∈ wl, isWordChar c = true)
    (h20 : 20 ≤ wl.length) : searchSeq tokenAlt (tokText wl) = true := by
  apply (searchSeq_iff _ _).mpr
  refine ⟨0, ?_⟩
  rw [List.drop_zero]
  have hsplit : tokText wl = (['t', 'o', 'k', 'e', 'n'] ++ ([] ++ (['='] ++ ([] ++
      (wl.take 20 ++ []))))) ++ wl.drop 20 := by
    have hdata : "token=".data = ['t', 'o', 'k', 'e', 'n', '='] := rfl
    simp [tokText, hdata, List.append_assoc]
  rw [hsplit]
  apply matchSeq_of_mseq
  have m1 : MSeq (lits "token") ['t', 'o', 'k', 'e', 'n'] :=
    MSeq.one (by decide) (MSeq.one (by decide) (MSeq.one (by decide)
      (MSeq.one (by decide) (MSeq.one (by decide) MSeq.nil))))
  have m2 : MSeq [wsStar] ([] : List Char) := MSeq.starSkip MSeq.nil
  have m3 : MSeq [Tok.one isColonEq] ['='] := MSeq.one (by decide) MSeq.nil
  have m5 : MSeq (List.replicate 20 (Tok.one isWordChar)) (wl.take 20) := by
    have hlen : (wl.take 20).length = 20 := by
      rw [List.length_take]
      omega
    have := mseq_replicate_one isWordChar (wl.take 20)
      (fun c hc => hwl c (List.mem_of_mem_take hc))
    rwa [hlen] at this
  have m6 : MSeq [Tok.star isWordChar] ([] : List Char) := MSeq.starSkip MSeq.nil
  have hcomb := mseq_append m1 (mseq_append m2 (mseq_append m3 (mseq_append m2
    (mseq_append m5 m6))))
  have htoks : lits "token" ++ ([wsStar] ++ ([Tok.one isColonEq] ++ ([wsStar] ++
      (List.replicate 20 (Tok.one isWordChar) ++ [Tok.star isWordChar])))) = tokenAlt := by
    simp [tokenAlt, word20, List.append_assoc]
  rwa [htoks] at hcomb

/-- On `token=`-plus-word-characters text, the credential category fires
iff the tail has at least 20 characters (only the `token` rule can
match; its `{20,}` class requires 20 word characters). -/
theorem credFindings_tokText_iff (wl : List Char) (hwl : ∀ c ∈ wl, isWordChar c = true) :
    credentialFindings (String.mk (tokText wl)) ≠ [] ↔ 20 ≤ wl.length := by
  constructor
  · intro hne
    unfold credentialFindings at hne
    rw [Ne, List.map_eq_nil_iff, List.filter_eq_nil_iff] at hne
    push_neg at hne
    obtain ⟨p, hp, hsp⟩ := hne
    simp only [credential_patterns, List.mem_cons, List.not_mem_nil, or_false] at hp
    rcases hp with rfl | rfl | rfl | rfl | rfl | rfl | rfl
    · simp only [searchPat, List.any_cons, List.any_nil, Bool.or_false] at hsp
      exact (colon_kill wl hwl _ (lits "password" ++ [wsStar])
        [wsStar, Tok.one isNonWS, Tok.star isNonWS] (by simp) (by decide) hsp).elim
    · simp only [searchPat, List.any_cons, List.any_nil, Bool.or_false] at hsp
      exact token_fwd wl hsp
    · simp only [searchPat, List.any_cons, List.any_nil, Bool.or_false] at hsp
      exact (colon_kill wl hwl _ (lits "api" ++ [Tok.opt isUndHyp] ++ lits "key" ++ [wsStar])
        ([wsStar] ++ word20) (by simp) (by decide) hsp).elim
    · simp only [searchPat, List.any_cons, List.any_nil, Bool.or_false] at hsp
      exact (colon_kill wl hwl _ (lits "secret" ++ [wsStar])
        ([wsStar] ++ word20) (by simp) (by decide) hsp).elim
    · simp only [searchPat, List.any_cons, List.any_nil, Bool.or_false] at hsp
      exact (ws_kill wl hwl _ (by simp [wsPlus]) hsp).elim
    · simp only [searchPat, List.any_cons, List.any_nil, Bool.or_false] at hsp
      exact (ws_kill wl hwl _ (by simp [wsPlus]) hsp).elim
    · simp only [searchPat, List.any_cons, List.any_nil, Bool.or_false] at hsp
      rw [Bool.or_eq_true] at hsp
      cases hsp with
      | inl h1 => exact (ws_kill wl hwl _ (by simp [wsPlus]) h1).elim
      | inr h2 => exact (ws_kill wl hwl _ (by simp [wsPlus]) h2).elim
  · intro h20
    have hmem : (⟨"token\\s*[:=]\\s*[a-zA-Z0-9_\\-]\x7b20,\x7d",
        [lits "token" ++ [wsStar, Tok.one isColonEq, wsStar] ++ word20]⟩ : RulePat) ∈
        credential_patterns.filter (fun pat => searchPat pat (String.mk (tokText wl)).data) := by
      rw [List.mem_filter]
      refine ⟨by simp [credential_patterns], ?_⟩
      show searchPat _ _ = true
      simp only [searchPat, List.any_cons, List.any_nil, Bool.or_false]
      exact token_bwd wl hwl h20
    unfold credentialFindings
    exact List.ne_nil_of_mem (List.mem_map_of_mem _ hmem)

theorem string_data_append (a b : String) : (a ++ b).data = a.data ++ b.data := rfl

theorem isPrefixOf_append_self : ∀ l m : List Char, l.isPrefixOf (l ++ m) = true := by
  intro l m
  rw [List.isPrefixOf_iff_prefix]
  exact List.prefix_append l m

/-- Counting credential-exposure messages in the full issue list counts
exactly the credential category: no other category's message template
starts with the credential prefix. -/
theorem credCountR_validate (s : String) :
    credCountR (validate_mcp_response (Value.vStr s)) =
      (credentialFindings (pyLower s)).length := by
  have hval := validate_eq_ok (Value.vStr s) s rfl
  unfold credCountR
  rw [hval]
  show (issuesFor (pyLower s)).countP _ = _
  rw [issuesFor_eq]
  simp only [List.countP_append]
  have hdom : (domainFindings (pyLower s)).countP
      (fun m => "Potential credential exposure: ".data.isPrefixOf m.data) = 0 := by
    unfold domainFindings
    rw [List.countP_eq_zero]
    intro a ha
    obtain ⟨d, _, rfl⟩ := List.mem_map.mp ha
    simp
  have hinj : (injectionFindings (pyLower s)).countP
      (fun m => "Potential credential exposure: ".data.isPrefixOf m.data) = 0 := by
    unfold injectionFindings
    rw [List.countP_eq_zero]
    intro a ha
    obtain ⟨d, _, rfl⟩ := List.mem_map.mp ha
    simp
  have hfs : (filesystemFindings (pyLower s)).countP
      (fun m => "Potential credential exposure: ".data.isPrefixOf m.data) = 0 := by
    unfold filesystemFindings
    rw [List.countP_eq_zero]
    intro a ha
    obtain ⟨d, _, rfl⟩ := List.mem_map.mp ha
    simp
  have hexec : (execFindings (pyLower s)).countP
      (fun m => "Potential credential exposure: ".data.isPrefixOf m.data) = 0 := by
    unfold execFindings
    rw [List.countP_eq_zero]
    intro a ha
    obtain ⟨d, _, rfl⟩ := List.mem_map.mp ha
    simp
  have hlen : (lengthFindings (pyLower s)).countP
      (fun m => "Potential credential exposure: ".data.isPrefixOf m.data) = 0 := by
    unfold lengthFindings
    by_cases h : (pyLower s).length > 100000 <;> simp [h]
  have hsch : (schemeFindings (pyLower s)).countP
      (fun m => "Potential credential exposure: ".data.isPrefixOf m.data) = 0 := by
    unfold schemeFindings
    rw [List.countP_eq_zero]
    intro a ha
    obtain ⟨d, _, rfl⟩ := List.mem_map.mp ha
    simp
  have hcred : (credentialFindings (pyLower s)).countP
      (fun m => "Potential credential exposure: ".data.isPrefixOf m.data) =
      (credentialFindings (pyLower s)).length := by
    rw [List.countP_eq_length]
    intro a ha
    obtain ⟨d, _, rfl⟩ := List.mem_map.mp (by exact ha)
    show ("Potential credential exposure: ".data.isPrefixOf
      ("Potential credential exposure: " ++ d.src).data) = true
    rw [string_data_append]
    exact isPrefixOf_append_self _ _
  rw [hdom, hinj, hfs, hexec, hlen, hsch, hcred]
  omega

theorem count_map_zero {α : Type} (f : α → String) (xs : List α) (m : String)
    (hne : ∀ a, f a ≠ m) : (xs.map f).count m = 0 := by
  rw [List.count_eq_zero]
  intro hmem
  obtain ⟨a, _, ha⟩ := List.mem_map.mp hmem
  exact hne a ha

theorem dom_msg_ne_len (x : String) :
    ("Suspicious domain detected: " ++ x) ≠ "Response exceeds safe length limit" := by
  intro h
  have h2 : (some 'S' : Option Char) = some 'R' := congrArg (fun t => t.data.head?) h
  simp at h2

theorem inj_msg_ne_len (x : String) :
    ("Potential prompt injection pattern: " ++ x) ≠ "Response exceeds safe length limit" := by
  intro h
  have h2 : (some 'P' : Option Char) = some 'R' := congrArg (fun t => t.data.head?) h
  simp at h2

theorem cred_msg_ne_len (x : String) :
    ("Potential credential exposure: " ++ x) ≠ "Response exceeds safe length limit" := by
  intro h
  have h2 : (some 'P' : Option Char) = some 'R' := congrArg (fun t => t.data.head?) h
  simp at h2

theorem fs_msg_ne_len (x : String) :
    ("Potential filesystem manipulation: " ++ x) ≠ "Response exceeds safe length limit" := by
  intro h
  have h2 : (some 'P' : Option Char) = some 'R' := congrArg (fun t => t.data.head?) h
  simp at h2

theorem exec_msg_ne_len (x : String) :
    ("Potential code execution attempt: " ++ x) ≠ "Response exceeds safe length limit" := by
  intro h
  have h2 : (some 'P' : Option Char) = some 'R' := congrArg (fun t => t.data.head?) h
  simp at h2

theorem scheme_msg_ne_len (x : String) :
    ("Suspicious URL scheme: " ++ x ++ "://") ≠ "Response exceeds safe length limit" := by
  intro h
  have h2 : (some 'S' : Option Char) = some 'R' := congrArg (fun t => t.data.head?) h
  simp at h2

/-- The number of `ExcessiveLength` findings is exactly the length
check's contribution: one iff the canonical text exceeds 100000
characters. -/
theorem count_lenMsg (v : Value) (s : String) (h : pyStr v = Except.ok s) :
    (issuesOfR (validate_mcp_response v)).count "Response exceeds safe length limit" =
      if (pyLower s).length > 100000 then 1 else 0 := by
  have hval := validate_eq_ok v s h
  unfold issuesOfR
  rw [hval]
  show (issuesFor (pyLower s)).count _ = _
  rw [issuesFor_eq]
  simp only [List.count_append]
  rw [show (domainFindings (pyLower s)).count "Response exceeds safe length limit" = 0 from
      count_map_zero _ _ _ (fun a => dom_msg_ne_len _),
    show (injectionFindings (pyLower s)).count "Response exceeds safe length limit" = 0 from
      count_map_zero _ _ _ (fun a => inj_msg_ne_len _),
    show (credentialFindings (pyLower s)).count "Response exceeds safe length limit" = 0 from
      count_map_zero _ _ _ (fun a => cred_msg_ne_len _),
    show (filesystemFindings (pyLower s)).count "Response exceeds safe length limit" = 0 from
      count_map_zero _ _ _ (fun a => fs_msg_ne_len _),
    show (execFindings (pyLower s)).count "Response exceeds safe length limit" = 0 from
      count_map_zero _ _ _ (fun a => exec_msg_ne_len _),
    show (schemeFindings (pyLower s)).count "Response exceeds safe length limit" = 0 from
      count_map_zero _ _ _ (fun a => scheme_msg_ne_len _)]
  unfold lengthFindings
  by_cases hl : (pyLower s).length > 100000 <;> simp [hl]

/-!  Claim theorems. -/

/-- C1: for a zero-argument operation whose call succeeds and whose
result classifies with `is_safe=true`, the wrapper with
`raise_on_unsafe=True` returns the original result unchanged; with
`is_safe=false` it raises `SecurityError` (so the unsafe result itself is
never returned). -/
theorem c1_strict_policy (func : Unit → Except PyExc Value) (v : Value)
    (vd : VerdictDict) (h1 : func () = Except.ok v)
    (h2 : validate_mcp_response v = Except.ok vd) :
    (vd.is_safe = true → secure_mcp_response true func () = Except.ok (WrapResult.result v)) ∧
    (vd.is_safe = false → secure_mcp_response true func () = Except.error (PyExc.securityError
      ("Unsafe MCP response detected: " ++ strListRepr vd.issues))) := by
  constructor
  · intro hsafe
    simp [secure_mcp_response, h1, h2, hsafe]
  · intro hunsafe
    simp [secure_mcp_response, h1, h2, hunsafe]

/-- Witness for C1 at a safe input (`"hello"`) and an unsafe one
(`"jailbreak"`). -/
theorem c1_strict_policy_witness :
    ((fun _ : Unit => (Except.ok (Value.vStr "hello") : Except PyExc Value)) ()
        = Except.ok (Value.vStr "hello")
      ∧ validate_mcp_response (Value.vStr "hello") = Except.ok (vdOf (Value.vStr "hello"))
      ∧ (vdOf (Value.vStr "hello")).is_safe = true
      ∧ secure_mcp_response true (fun _ => Except.ok (Value.vStr "hello")) ()
          = Except.ok (WrapResult.result (Value.vStr "hello")))
    ∧ ((fun _ : Unit => (Except.ok (Value.vStr "jailbreak") : Except PyExc Value)) ()
        = Except.ok (Value.vStr "jailbreak")
      ∧ validate_mcp_response (Value.vStr "jailbreak") = Except.ok (vdOf (Value.vStr "jailbreak"))
      ∧ (vdOf (Value.vStr "jailbreak")).is_safe = false
      ∧ secure_mcp_response true (fun _ => Except.ok (Value.vStr "jailbreak")) ()
          = Except.error (PyExc.securityError ("Unsafe MCP response detected: "
              ++ strListRepr (vdOf (Value.vStr "jailbreak")).issues))) := by
  refine ⟨⟨rfl, rfl, rfl, ?_⟩, ⟨rfl, rfl, rfl, ?_⟩⟩
  · exact (c1_strict_policy (fun _ => Except.ok (Value.vStr "hello")) (Value.vStr "hello")
      (vdOf (Value.vStr "hello")) rfl rfl).1 rfl
  · exact (c1_strict_policy (fun _ => Except.ok (Value.vStr "jailbreak")) (Value.vStr "jailbreak")
      (vdOf (Value.vStr "jailbreak")) rfl rfl).2 rfl

/-- C2 counterexample: with `raise_on_unsafe=False` the wrapper does
return the validation dict for an unsafe result, but that dict's
`'response'` key (`main.py` line 126) holds the original unsafe text, so
the blocked content *is* handed to the caller, contrary to the claim
that the original text is not leaked. -/
theorem c2_counterexample :
    secure_mcp_response false (fun _ => Except.ok (Value.vStr "/etc/passwd contents")) ()
      = Except.ok (WrapResult.verdict
        { is_safe := false,
          issues := ["Potential filesystem manipulation: /etc/passwd"],
          response := Value.vStr "/etc/passwd contents" }) := by
  simp [secure_mcp_response]
  rfl

/-- C2 (amended): with `raise_on_unsafe=False` and an unsafe result, the
wrapper returns the validation dict in place of the original result, and
that dict carries the original response itself under its `response`
field — the caller sees why it was blocked *and* the blocked content. -/
theorem c2_advisory_policy (func : Unit → Except PyExc Value) (v : Value)
    (vd : VerdictDict) (h1 : func () = Except.ok v)
    (h2 : validate_mcp_response v = Except.ok vd) (h3 : vd.is_safe = false) :
    secure_mcp_response false func () = Except.ok (WrapResult.verdict vd)
      ∧ vd.response = v := by
  constructor
  · simp [secure_mcp_response, h1, h2, h3]
  · cases hps : pyStr v with
    | error e =>
      unfold validate_mcp_response at h2
      rw [hps] at h2
      exact Except.noConfusion h2
    | ok s =>
      have hv := validate_eq_ok v s hps
      rw [hv] at h2
      injection h2 with h4
      rw [← h4]

/-- Witness for C2 (amended) at the spec's own scenario. -/
theorem c2_advisory_policy_witness :
    ((fun _ : Unit => (Except.ok (Value.vStr "/etc/passwd contents") : Except PyExc Value)) ()
        = Except.ok (Value.vStr "/etc/passwd contents")
      ∧ validate_mcp_response (Value.vStr "/etc/passwd contents")
          = Except.ok (vdOf (Value.vStr "/etc/passwd contents"))
      ∧ (vdOf (Value.vStr "/etc/passwd contents")).is_safe = false
      ∧ secure_mcp_response false (fun _ => Except.ok (Value.vStr "/etc/passwd contents")) ()
          = Except.ok (WrapResult.verdict (vdOf (Value.vStr "/etc/passwd contents")))
      ∧ (vdOf (Value.vStr "/etc/passwd contents")).response
          = Value.vStr "/etc/passwd contents") := by
  refine ⟨rfl, rfl, rfl, ?_, ?_⟩
  · exact (c2_advisory_policy (fun _ => Except.ok (Value.vStr "/etc/passwd contents"))
      (Value.vStr "/etc/passwd contents") (vdOf (Value.vStr "/etc/passwd contents")) rfl rfl rfl).1
  · exact (c2_advisory_policy (fun _ => Except.ok (Value.vStr "/etc/passwd contents"))
      (Value.vStr "/etc/passwd contents") (vdOf (Value.vStr "/etc/passwd contents")) rfl rfl rfl).2

/-- C3: an operation that itself raises propagates that same exception
unchanged through the wrapper, for either policy; the gate never turns an
upstream failure into a verdict or swallows it. -/
theorem c3_upstream_propagates (func : Unit → Except PyExc Value) (e : PyExc) (b : Bool)
    (h : func () = Except.error e) : secure_mcp_response b func () = Except.error e := by
  simp [secure_mcp_response, h]

/-- Witness for C3 with a concrete failing operation, both policies. -/
theorem c3_upstream_propagates_witness :
    ((fun _ : Unit => (Except.error (PyExc.exc "boom") : Except PyExc Value)) ()
        = Except.error (PyExc.exc "boom"))
    ∧ secure_mcp_response true (fun _ => Except.error (PyExc.exc "boom")) ()
        = Except.error (PyExc.exc "boom")
    ∧ secure_mcp_response false (fun _ => Except.error (PyExc.exc "boom")) ()
        = Except.error (PyExc.exc "boom") :=
  ⟨rfl, c3_upstream_propagates _ _ true rfl, c3_upstream_propagates _ _ false rfl⟩

/-- C6: whenever classification returns a verdict, `is_safe` is true
exactly when the issues list is empty (`'is_safe': len(issues) == 0`). -/
theorem c6_is_safe_iff_empty (v : Value) (vd : VerdictDict)
    (h : validate_mcp_response v = Except.ok vd) : vd.is_safe = vd.issues.isEmpty := by
  cases hps : pyStr v with
  | error e =>
    unfold validate_mcp_response at h
    rw [hps] at h
    exact Except.noConfusion h
  | ok s =>
    have hv := validate_eq_ok v s hps
    rw [hv] at h
    injection h with h4
    rw [← h4]
    show ((issuesFor (pyLower s)).length == 0) = (issuesFor (pyLower s)).isEmpty
    cases issuesFor (pyLower s) <;> rfl

/-- Witness for C6 on a safe and an unsafe concrete input. -/
theorem c6_is_safe_iff_empty_witness :
    (validate_mcp_response (Value.vStr "hi") = Except.ok (vdOf (Value.vStr "hi"))
      ∧ (vdOf (Value.vStr "hi")).is_safe = (vdOf (Value.vStr "hi")).issues.isEmpty)
    ∧ (validate_mcp_response (Value.vStr "jailbreak")
        = Except.ok (vdOf (Value.vStr "jailbreak"))
      ∧ (vdOf (Value.vStr "jailbreak")).is_safe
        = (vdOf (Value.vStr "jailbreak")).issues.isEmpty) :=
  ⟨⟨rfl, c6_is_safe_iff_empty (Value.vStr "hi") (vdOf (Value.vStr "hi")) rfl⟩,
    ⟨rfl, c6_is_safe_iff_empty (Value.vStr "jailbreak") (vdOf (Value.vStr "jailbreak")) rfl⟩⟩

/-- C8 counterexample: classification is *not* total — a value whose
`__str__` raises makes `validate_mcp_response` propagate that exception
(line 28 of `main.py` does `str(response)` with no exception handling),
rather than degrading to a placeholder text and returning a verdict. -/
theorem c8_counterexample :
    validate_mcp_response (Value.vRaise "boom") = Except.error (PyExc.exc "boom") := rfl

/-- C8 (amended): classification returns a verdict for every input whose
stringification succeeds; an input whose `str()` raises propagates the
exception instead of being classified. -/
theorem c8_total_on_stringifiable (v : Value) (s : String)
    (h : pyStr v = Except.ok s) : okOfR (validate_mcp_response v) = true := by
  rw [validate_eq_ok v s h]
  rfl

/-- Witness for C8 (amended). -/
theorem c8_total_on_stringifiable_witness :
    pyStr (Value.vStr "hi") = Except.ok "hi"
      ∧ okOfR (validate_mcp_response (Value.vStr "hi")) = true :=
  ⟨rfl, c8_total_on_stringifiable (Value.vStr "hi") "hi" rfl⟩

/-- C5: on any input that stringifies, the issue list produced by the
classifier is exactly the concatenation, in the fixed evaluation order
domains → injection → credentials → filesystem → execution → length →
URL scheme, of the independently-defined per-category finding lists — so
no category short-circuits another, findings from several categories
accumulate, and the order is determined by the category order.  The
classifier is a pure function, so repeated calls on the same input are
literally the same value (second conjunct). -/
theorem c5_category_order (v : Value) (s : String) (h : pyStr v = Except.ok s) :
    issuesOfR (validate_mcp_response v) =
      domainFindings (pyLower s) ++ injectionFindings (pyLower s)
        ++ credentialFindings (pyLower s) ++ filesystemFindings (pyLower s)
        ++ execFindings (pyLower s) ++ lengthFindings (pyLower s)
        ++ schemeFindings (pyLower s)
      ∧ validate_mcp_response v = validate_mcp_response v := by
  refine ⟨?_, rfl⟩
  unfold issuesOfR
  rw [validate_eq_ok v s h]
  exact issuesFor_eq (pyLower s)

/-- Witness for C5 at an input that fires several categories at once. -/
theorem c5_category_order_witness :
    pyStr (Value.vStr "see pastebin.com and eval(x) at gopher://h") =
      Except.ok "see pastebin.com and eval(x) at gopher://h"
    ∧ (issuesOfR (validate_mcp_response (Value.vStr "see pastebin.com and eval(x) at gopher://h")) =
        domainFindings (pyLower "see pastebin.com and eval(x) at gopher://h")
          ++ injectionFindings (pyLower "see pastebin.com and eval(x) at gopher://h")
          ++ credentialFindings (pyLower "see pastebin.com and eval(x) at gopher://h")
          ++ filesystemFindings (pyLower "see pastebin.com and eval(x) at gopher://h")
          ++ execFindings (pyLower "see pastebin.com and eval(x) at gopher://h")
          ++ lengthFindings (pyLower "see pastebin.com and eval(x) at gopher://h")
          ++ schemeFindings (pyLower "see pastebin.com and eval(x) at gopher://h")
        ∧ validate_mcp_response (Value.vStr "see pastebin.com and eval(x) at gopher://h")
          = validate_mcp_response (Value.vStr "see pastebin.com and eval(x) at gopher://h")) :=
  ⟨rfl, c5_category_order (Value.vStr "see pastebin.com and eval(x) at gopher://h")
    "see pastebin.com and eval(x) at gopher://h" rfl⟩

theorem pyLower_mk_length (l : List Char) : (pyLower (String.mk l)).length = l.length := by
  show (l.map Char.toLower).length = l.length
  exact List.length_map l Char.toLower

/-- C7: if the canonical (lowercased) text has length exactly 100000, no
`ExcessiveLength` finding is produced; at 100001, exactly one is. -/
theorem c7_length_boundary (v : Value) (s : String) (h : pyStr v = Except.ok s) :
    ((pyLower s).length = 100000 →
      (issuesOfR (validate_mcp_response v)).count "Response exceeds safe length limit" = 0)
    ∧ ((pyLower s).length = 100001 →
      (issuesOfR (validate_mcp_response v)).count "Response exceeds safe length limit" = 1) := by
  constructor
  · intro hlen
    rw [count_lenMsg v s h, hlen]
    norm_num
  · intro hlen
    rw [count_lenMsg v s h, hlen]
    norm_num

/-- Witness for C7 on concrete 100000- and 100001-character strings. -/
theorem c7_length_boundary_witness :
    (pyStr (Value.vStr (String.mk (List.replicate 100000 'a')))
        = Except.ok (String.mk (List.replicate 100000 'a'))
      ∧ (pyLower (String.mk (List.replicate 100000 'a'))).length = 100000
      ∧ (issuesOfR (validate_mcp_response (Value.vStr (String.mk (List.replicate 100000 'a'))))).count
          "Response exceeds safe length limit" = 0)
    ∧ (pyStr (Value.vStr (String.mk (List.replicate 100001 'a')))
        = Except.ok (String.mk (List.replicate 100001 'a'))
      ∧ (pyLower (String.mk (List.replicate 100001 'a'))).length = 100001
      ∧ (issuesOfR (validate_mcp_response (Value.vStr (String.mk (List.replicate 100001 'a'))))).count
          "Response exceeds safe length limit" = 1) := by
  have h1 : (pyLower (String.mk (List.replicate 100000 'a'))).length = 100000 := by
    rw [pyLower_mk_length]
    exact List.length_replicate 100000 'a'
  have h2 : (pyLower (String.mk (List.replicate 100001 'a'))).length = 100001 := by
    rw [pyLower_mk_length]
    exact List.length_replicate 100001 'a'
  refine ⟨⟨rfl, h1, ?_⟩, ⟨rfl, h2, ?_⟩⟩
  · exact (c7_length_boundary (Value.vStr (String.mk (List.replicate 100000 'a')))
      (String.mk (List.replicate 100000 'a')) rfl).1 h1
  · exact (c7_length_boundary (Value.vStr (String.mk (List.replicate 100001 'a')))
      (String.mk (List.replicate 100001 'a')) rfl).2 h2

/-- C9: if the tracker call inside `get_jira_issue` raises, the inner
body catches it and returns the dict `\x7b"error": str(e)\x7d`; that dict is
classified like ordinary content, and when its text matches a rule the
strict gate raises `SecurityError` — the tracker failure is blocked as
unsafe content, never surfaced as an upstream failure. -/
theorem c9_tracker_error_classified (jira_issue : String → Except PyExc IssueFields)
    (issue_key : String) (e : PyExc) (h1 : jira_issue issue_key = Except.error e)
    (h2 : isUnsafeR (validate_mcp_response
      (Value.vDict [("error", Value.vStr (pyStrExc e))])) = true) :
    get_jira_issue_inner jira_issue issue_key = Value.vDict [("error", Value.vStr (pyStrExc e))]
    ∧ get_jira_issue jira_issue issue_key = Except.error (PyExc.securityError
        ("Unsafe MCP response detected: " ++ strListRepr (issuesOfR (validate_mcp_response
          (Value.vDict [("error", Value.vStr (pyStrExc e))]))))) := by
  have hinner : get_jira_issue_inner jira_issue issue_key
      = Value.vDict [("error", Value.vStr (pyStrExc e))] := by
    unfold get_jira_issue_inner
    rw [h1]
  refine ⟨hinner, ?_⟩
  unfold get_jira_issue
  cases hval : validate_mcp_response (Value.vDict [("error", Value.vStr (pyStrExc e))]) with
  | error e2 =>
    rw [hval] at h2
    exact absurd h2 (by simp [isUnsafeR])
  | ok vd =>
    rw [hval] at h2
    unfold isUnsafeR at h2
    simp only [Bool.not_eq_true'] at h2
    simp [secure_mcp_response, hinner, hval, h2, issuesOfR]

/-- Witness for C9: a tracker failure whose message names `pastebin.com`
is caught, wrapped as `\x7b"error": ...\x7d`, classified unsafe, and blocked
by the strict gate. -/
theorem c9_tracker_error_classified_witness :
    ((fun _ : String => (Except.error (PyExc.exc "connection to pastebin.com timed out")
        : Except PyExc IssueFields)) "CRM-1"
      = Except.error (PyExc.exc "connection to pastebin.com timed out"))
    ∧ isUnsafeR (validate_mcp_response (Value.vDict [("error",
        Value.vStr (pyStrExc (PyExc.exc "connection to pastebin.com timed out")))])) = true
    ∧ (get_jira_issue_inner (fun _ => Except.error (PyExc.exc "connection to pastebin.com timed out"))
        "CRM-1" = Value.vDict [("error",
          Value.vStr (pyStrExc (PyExc.exc "connection to pastebin.com timed out")))]
      ∧ get_jira_issue (fun _ => Except.error (PyExc.exc "connection to pastebin.com timed out"))
          "CRM-1" = Except.error (PyExc.securityError
        ("Unsafe MCP response detected: " ++ strListRepr (issuesOfR (validate_mcp_response
          (Value.vDict [("error",
            Value.vStr (pyStrExc (PyExc.exc "connection to pastebin.com timed out")))])))))) :=
  ⟨rfl, rfl, c9_tracker_error_classified
    (fun _ => Except.error (PyExc.exc "connection to pastebin.com timed out")) "CRM-1"
    (PyExc.exc "connection to pastebin.com timed out") rfl rfl⟩

/-- C10: the verdict's `is_safe` flag and issue list are invariant under
lowercasing a string input, since the canonical text is
`str(value).lower()` and lowercasing is idempotent. -/
theorem c10_lower_invariant (s : String) :
    safeOfR (validate_mcp_response (Value.vStr s))
      = safeOfR (validate_mcp_response (Value.vStr (pyLower s)))
    ∧ issuesOfR (validate_mcp_response (Value.vStr s))
      = issuesOfR (validate_mcp_response (Value.vStr (pyLower s))) := by
  have h1 := validate_eq_ok (Value.vStr s) s rfl
  have h2 := validate_eq_ok (Value.vStr (pyLower s)) (pyLower s) rfl
  constructor
  · unfold safeOfR
    rw [h1, h2, pyLower_pyLower]
  · unfold issuesOfR
    rw [h1, h2, pyLower_pyLower]

/-- C4 counterexample: the claim says any covered credential field with a
value shorter than 20 characters yields no finding, naming
`"password=short"`; but the password rule is `password\s*[:=]\s*\S+`,
with no 20-character threshold, so `"password=short"` does yield a
`CredentialExposure` finding (and an unsafe verdict). -/
theorem c4_counterexample :
    validate_mcp_response (Value.vStr "password=short") = Except.ok
      { is_safe := false,
        issues := ["Potential credential exposure: password\\s*[:=]\\s*\\S+"],
        response := Value.vStr "password=short" } := rfl

/-- C4 (amended): the 20-character boundary is exact for the `token`
field — for every value made of word characters (`[a-zA-Z0-9_\-]`), a
`CredentialExposure` finding is produced iff the value has at least 20
characters (covering the spec's `token=abcdEFGH12345678901234` /
`token=short` examples) — but the `password` rule matches any non-empty
non-whitespace value, so `password=short` produces a finding. -/
theorem c4_token_boundary :
    (∀ w : List Char, (∀ c ∈ w, isWordChar c = true) →
      (credCountR (validate_mcp_response
          (Value.vStr (String.mk ("token=".data ++ w)))) ≠ 0
        ↔ 20 ≤ w.length))
    ∧ credCountR (validate_mcp_response (Value.vStr "password=short")) = 1 := by
  constructor
  · intro w hw
    have hcanon : pyLower (String.mk ("token=".data ++ w))
        = String.mk (tokText (w.map Char.toLower)) := rfl
    rw [credCountR_validate, hcanon]
    have hwl : ∀ c ∈ w.map Char.toLower, isWordChar c = true := by
      intro c hc
      obtain ⟨d, hd, rfl⟩ := List.mem_map.mp hc
      exact wordChar_toLower d (hw d hd)
    have hiff := credFindings_tokText_iff (w.map Char.toLower) hwl
    rw [List.length_map] at hiff
    rw [Ne, List.length_eq_zero]
    exact hiff
  · rfl

/-- Witness for C4 (amended) at a 20-character word value. -/
theorem c4_token_boundary_witness :
    (∀ c ∈ List.replicate 20 'a', isWordChar c = true)
    ∧ (credCountR (validate_mcp_response
        (Value.vStr (String.mk ("token=".data ++ List.replicate 20 'a')))) ≠ 0
      ↔ 20 ≤ (List.replicate 20 'a').length) :=
  ⟨by decide, c4_token_boundary.1 (List.replicate 20 'a') (by decide)⟩
